import Mathlib

/-!
# JHybridImageSpec (generated Android C++ bridge) and the hybrid-object registry

A shallow embedding of
`packages/react-native-nitro-image/nitrogen/generated/android/c++/JHybridImageSpec.cpp`
and of the factory declared in
`packages/react-native-nitro-modules/ios/test-object/SwiftTestHybridObject.hpp`.

C++ constructs and how they are embedded:

* a function-local `static const auto method = <init>;` is a slot of process-wide
  state, one per member function, initialised by the first pass through the
  declaration whose initialiser completes without throwing (`staticInit`);
* `throw` and an exception escaping a callee are the outcome `Outcome.threw`;
* an exception escaping a `noexcept` function calls `std::terminate`
  (`Outcome.terminated`);
* the JNI host (classes, objects, `GetMethodID`, `CallLongMethod`) is the
  environment: it is a parameter of the embedding, and every interaction with
  it is recorded in `World.trace`.
-/

namespace margelo.nitro.image

/-! ## Value types -/

/-- C++ `double`, kept as its IEEE-754 binary64 bit pattern; the stubs never
compute with it. -/
structure Double where
  bits : Nat
deriving DecidableEq, Repr

/-- Modelled from the spec: the record `ImageSize` (declared in `ImageSize.hpp`,
not part of the sources at hand) is `Record{width:Int,height:Int}`. -/
structure ImageSize where
  width : Int
  height : Int
deriving DecidableEq, Repr

/-- Modelled from the spec: the enum `PixelFormat` (declared in
`PixelFormat.hpp`, not part of the sources at hand); the spec only says `Enum`,
so an enumerator is represented by its ordinal. -/
structure PixelFormat where
  ordinal : Nat
deriving DecidableEq, Repr

/-- Modelled from the spec: the enum `ImageFormat` (declared in
`ImageFormat.hpp`, not part of the sources at hand); the spec names the
enumerator `PNG`, any other enumerator is represented by its ordinal. -/
inductive ImageFormat where
  | PNG
  | other (ordinal : Nat)
deriving DecidableEq, Repr

/-- Modelled from the spec: the callback type `Func_void_std__string` (declared
in `Func_void_std__string.hpp`, not part of the sources at hand), a handle on a
host callable taking a string. -/
structure Func_void_std__string where
  callable : Nat
deriving DecidableEq, Repr

/-! ## The JNI host -/

/-- A resolved host method handle (fbjni `JMethod`, a wrapped `jmethodID`). -/
structure JMethod where
  id : Nat
deriving DecidableEq, Repr

/-- The failure fbjni raises for a host-side error (`JniException`); its
content is chosen by the host. -/
structure JniException where
  what : String
deriving DecidableEq, Repr

/-- A host class: its identity and its answer to `GetMethodID(name, signature)`. -/
structure JClass where
  id : Nat
  getMethodID : String → String → Except JniException JMethod

/-- A host object: its identity, its runtime class and its answer to
`CallLongMethod(this, method)`. -/
structure JObject where
  id : Nat
  getClass : JClass
  callLongMethod : JMethod → Except JniException Int

/-- What a C++ function can throw here. -/
inductive Exn where
  | runtime_error (what : String)
  | jni (e : JniException)
deriving DecidableEq, Repr

/-- How a C++ call ends. -/
inductive Outcome (α : Type) where
  | returned (value : α)
  | threw (e : Exn)
  | terminated
deriving DecidableEq, Repr

/-- The member functions of `JHybridImageSpec` that own a static `method`. -/
inductive Member where
  | getExternalMemorySize
  | getSize
  | getPixelFormat
  | getSomeSettableProp
  | setSomeSettableProp
  | toArrayBuffer
  | saveToFile
deriving DecidableEq, Repr

/-- An interaction with the host. -/
inductive Event where
  | lookup (cls : Nat) (name : String) (signature : String) (found : Option JMethod)
  | call (method : JMethod) (obj : Nat)
deriving DecidableEq, Repr

/-- Process state: the function-local statics (`none` = not yet initialised)
and the host interactions so far, oldest first. -/
structure World where
  statics : Member → Option JMethod
  trace : List Event

/-- Process start: no static is initialised, nothing has happened. -/
def World.init : World :=
  { statics := fun _ => none, trace := [] }

/-- The proxy: it holds the reference `_javaPart` to its host object. -/
structure JHybridImageSpec where
  _javaPart : JObject

/-! ## C++ and fbjni primitives -/

/-- The fbjni call `cls->getMethod<Sig>(name)`: asks the host, throws the
host's `JniException` when the host has no such method. -/
def getMethod (cls : JClass) (signature : String) (name : String) (w : World) :
    Except Exn JMethod × World :=
  match cls.getMethodID name signature with
  | .ok m =>
    (.ok m, { w with trace := w.trace ++ [Event.lookup cls.id name signature (some m)] })
  | .error e =>
    (.error (Exn.jni e),
      { w with trace := w.trace ++ [Event.lookup cls.id name signature none] })

/-- The fbjni call `method(obj)` for a `jlong()` method: `CallLongMethod`, a
pending host exception is rethrown as `JniException`. -/
def callLong (method : JMethod) (obj : JObject) (w : World) : Except Exn Int × World :=
  let w1 : World := { w with trace := w.trace ++ [Event.call method obj.id] }
  match obj.callLongMethod method with
  | .ok n => (.ok n, w1)
  | .error e => (.error (Exn.jni e), w1)

/-- A function-local `static const auto method = init;` in member function
`slot`: an initialised static is read, an uninitialised one runs `init` and is
initialised only if `init` does not throw (an initialisation that exits by an
exception is not complete and is tried again the next time control enters the
declaration). -/
def staticInit (slot : Member) (init : World → Except Exn JMethod × World) (w : World) :
    Except Exn JMethod × World :=
  match w.statics slot with
  | some m => (.ok m, w)
  | none =>
    match init w with
    | (.ok m, w1) => (.ok m, { w1 with statics := Function.update w1.statics slot (some m) })
    | (.error e, w1) => (.error e, w1)

/-- A `noexcept` function: an exception that would leave it terminates the
process. -/
def noexcept {α : Type} (body : Outcome α × World) : Outcome α × World :=
  match body with
  | (.threw _, w) => (.terminated, w)
  | r => r

/-- Implicit conversion of a `jlong` to `size_t`, `sizeBits` bits wide. -/
def toSizeT (sizeBits : Nat) (n : Int) : Nat :=
  (n % (2 : Int) ^ sizeBits).toNat

/-! ## JHybridImageSpec.cpp -/

/-- The member `JHybridImageSpec::initHybrid`: `makeCxxInstance(jThis)`. -/
def JHybridImageSpec.initHybrid (jThis : JObject) : JHybridImageSpec :=
  { _javaPart := jThis }

/-- The member `JHybridImageSpec::getExternalMemorySize() noexcept`. -/
def JHybridImageSpec.getExternalMemorySize (sizeBits : Nat) (self : JHybridImageSpec)
    (w : World) : Outcome Nat × World :=
  noexcept <|
    match staticInit .getExternalMemorySize
        (getMethod self._javaPart.getClass "jlong()" "getMemorySize") w with
    | (.error e, w1) => (.threw e, w1)
    | (.ok method, w1) =>
      match callLong method self._javaPart w1 with
      | (.error e, w2) => (.threw e, w2)
      | (.ok n, w2) => (.returned (toSizeT sizeBits n), w2)

/-- The member `JHybridImageSpec::getSize()`. -/
def JHybridImageSpec.getSize (self : JHybridImageSpec) (w : World) :
    Outcome ImageSize × World :=
  match staticInit .getSize
      (getMethod self._javaPart.getClass "JImageSize()" "getSize") w with
  | (.error e, w1) => (.threw e, w1)
  | (.ok _, w1) => (.threw (.runtime_error "getSize(...) is not yet implemented!"), w1)

/-- The member `JHybridImageSpec::getPixelFormat()`. -/
def JHybridImageSpec.getPixelFormat (self : JHybridImageSpec) (w : World) :
    Outcome PixelFormat × World :=
  match staticInit .getPixelFormat
      (getMethod self._javaPart.getClass "JPixelFormat()" "getPixelFormat") w with
  | (.error e, w1) => (.threw e, w1)
  | (.ok _, w1) => (.threw (.runtime_error "getPixelFormat(...) is not yet implemented!"), w1)

/-- The member `JHybridImageSpec::getSomeSettableProp()`. -/
def JHybridImageSpec.getSomeSettableProp (self : JHybridImageSpec) (w : World) :
    Outcome Double × World :=
  match staticInit .getSomeSettableProp
      (getMethod self._javaPart.getClass "double()" "getSomeSettableProp") w with
  | (.error e, w1) => (.threw e, w1)
  | (.ok _, w1) =>
    (.threw (.runtime_error "getSomeSettableProp(...) is not yet implemented!"), w1)

/-- The member `JHybridImageSpec::setSomeSettableProp(double)`. -/
def JHybridImageSpec.setSomeSettableProp (self : JHybridImageSpec) (_someSettableProp : Double)
    (w : World) : Outcome Unit × World :=
  match staticInit .setSomeSettableProp
      (getMethod self._javaPart.getClass "void(double)" "setSomeSettableProp") w with
  | (.error e, w1) => (.threw e, w1)
  | (.ok _, w1) =>
    (.threw (.runtime_error "setSomeSettableProp(...) is not yet implemented!"), w1)

/-- The member `JHybridImageSpec::toArrayBuffer(ImageFormat)`. -/
def JHybridImageSpec.toArrayBuffer (self : JHybridImageSpec) (_format : ImageFormat)
    (w : World) : Outcome Double × World :=
  match staticInit .toArrayBuffer
      (getMethod self._javaPart.getClass "double(JImageFormat)" "toArrayBuffer") w with
  | (.error e, w1) => (.threw e, w1)
  | (.ok _, w1) => (.threw (.runtime_error "toArrayBuffer(...) is not yet implemented!"), w1)

/-- The member `JHybridImageSpec::saveToFile(const std::string&, const Func_void_std__string&)`. -/
def JHybridImageSpec.saveToFile (self : JHybridImageSpec) (_path : String)
    (_onFinished : Func_void_std__string) (w : World) : Outcome Unit × World :=
  match staticInit .saveToFile
      (getMethod self._javaPart.getClass
        "void(std::string, jni::alias_ref<JFunc_void_std__string::javaobject>)" "saveToFile") w with
  | (.error e, w1) => (.threw e, w1)
  | (.ok _, w1) => (.threw (.runtime_error "saveToFile(...) is not yet implemented!"), w1)

/-! ## Calls and call sequences -/

/-- A call of a member, with its arguments. -/
inductive Call where
  | getExternalMemorySize
  | getSize
  | getPixelFormat
  | getSomeSettableProp
  | setSomeSettableProp (someSettableProp : Double)
  | toArrayBuffer (format : ImageFormat)
  | saveToFile (path : String) (onFinished : Func_void_std__string)
deriving DecidableEq, Repr

/-- The member a call addresses. -/
def Call.member : Call → Member
  | .getExternalMemorySize => .getExternalMemorySize
  | .getSize => .getSize
  | .getPixelFormat => .getPixelFormat
  | .getSomeSettableProp => .getSomeSettableProp
  | .setSomeSettableProp _ => .setSomeSettableProp
  | .toArrayBuffer _ => .toArrayBuffer
  | .saveToFile _ _ => .saveToFile

/-- The six generated property and method members (all but
`getExternalMemorySize`). -/
def Member.isStub : Member → Bool
  | .getExternalMemorySize => false
  | _ => true

/-- A value returned by some member. -/
inductive Value where
  | size_t (n : Nat)
  | imageSize (s : ImageSize)
  | pixelFormat (p : PixelFormat)
  | double (d : Double)
  | void
deriving DecidableEq, Repr

/-- Relabel the returned value of an outcome. -/
def Outcome.map {α β : Type} (f : α → β) : Outcome α → Outcome β
  | .returned a => .returned (f a)
  | .threw e => .threw e
  | .terminated => .terminated

/-- Perform a call on the instance `self`. -/
def Call.invoke (sizeBits : Nat) (self : JHybridImageSpec) (c : Call) (w : World) :
    Outcome Value × World :=
  match c with
  | .getExternalMemorySize =>
    let r := self.getExternalMemorySize sizeBits w
    (r.1.map Value.size_t, r.2)
  | .getSize =>
    let r := self.getSize w
    (r.1.map Value.imageSize, r.2)
  | .getPixelFormat =>
    let r := self.getPixelFormat w
    (r.1.map Value.pixelFormat, r.2)
  | .getSomeSettableProp =>
    let r := self.getSomeSettableProp w
    (r.1.map Value.double, r.2)
  | .setSomeSettableProp v =>
    let r := self.setSomeSettableProp v w
    (r.1.map (fun _ => Value.void), r.2)
  | .toArrayBuffer format =>
    let r := self.toArrayBuffer format w
    (r.1.map Value.double, r.2)
  | .saveToFile path onFinished =>
    let r := self.saveToFile path onFinished w
    (r.1.map (fun _ => Value.void), r.2)

/-- One call in a sequence: the instance and the call made on it. -/
structure Invocation where
  self : JHybridImageSpec
  call : Call

/-- Run a sequence of calls in order; nothing runs after the process has
terminated. -/
def run (sizeBits : Nat) : List Invocation → World → World
  | [], w => w
  | i :: rest, w =>
    match i.call.invoke sizeBits i.self w with
    | (.terminated, w1) => w1
    | (_, w1) => run sizeBits rest w1

/-- The name under which a member is declared on the host object. -/
def Member.hostName : Member → String
  | .getExternalMemorySize => "getMemorySize"
  | .getSize => "getSize"
  | .getPixelFormat => "getPixelFormat"
  | .getSomeSettableProp => "getSomeSettableProp"
  | .setSomeSettableProp => "setSomeSettableProp"
  | .toArrayBuffer => "toArrayBuffer"
  | .saveToFile => "saveToFile"

/-- The name of the C++ member function. -/
def Member.cppName : Member → String
  | .getExternalMemorySize => "getExternalMemorySize"
  | .getSize => "getSize"
  | .getPixelFormat => "getPixelFormat"
  | .getSomeSettableProp => "getSomeSettableProp"
  | .setSomeSettableProp => "setSomeSettableProp"
  | .toArrayBuffer => "toArrayBuffer"
  | .saveToFile => "saveToFile"

/-- The C++ signature each member hands to `getMethod`. -/
def Member.signature : Member → String
  | .getExternalMemorySize => "jlong()"
  | .getSize => "JImageSize()"
  | .getPixelFormat => "JPixelFormat()"
  | .getSomeSettableProp => "double()"
  | .setSomeSettableProp => "void(double)"
  | .toArrayBuffer => "double(JImageFormat)"
  | .saveToFile => "void(std::string, jni::alias_ref<JFunc_void_std__string::javaobject>)"

/-- The lookup events of a trace that ask for `name`. -/
def lookupsOf (name : String) (t : List Event) : List Event :=
  t.filter fun e =>
    match e with
    | .lookup _ n _ _ => n == name
    | .call _ _ => false

/-- The successful lookup events of a trace that ask for `name`. -/
def successfulLookupsOf (name : String) (t : List Event) : List Event :=
  t.filter fun e =>
    match e with
    | .lookup _ n _ (some _) => n == name
    | _ => false

/-- The suffix every stub message ends with. -/
def notYetImplemented : String := "(...) is not yet implemented!"

/-- What a stub call does, spelled out by cases on the static and on the
host's answer. -/
def stubStep (self : JHybridImageSpec) (m : Member) (w : World) : Outcome Value × World :=
  match w.statics m with
  | some _ => (.threw (.runtime_error (m.cppName ++ notYetImplemented)), w)
  | none =>
    match self._javaPart.getClass.getMethodID m.hostName m.signature with
    | .ok h =>
      (.threw (.runtime_error (m.cppName ++ notYetImplemented)),
        { statics := Function.update w.statics m (some h),
          trace := w.trace ++
            [Event.lookup self._javaPart.getClass.id m.hostName m.signature (some h)] })
    | .error e =>
      (.threw (.jni e),
        { w with trace := w.trace ++
            [Event.lookup self._javaPart.getClass.id m.hostName m.signature none] })

/-- The `CallLongMethod` events a call of member `m` makes once it holds the
handle `h`: one for `getExternalMemorySize`, none for a stub. -/
def callEvents (self : JHybridImageSpec) (m : Member) (h : JMethod) : List Event :=
  if m.isStub then [] else [Event.call h self._javaPart.id]

/-- The state a call of member `m` on `self` leaves behind, spelled out by
cases on the static and on the host's answer. -/
def worldStep (self : JHybridImageSpec) (m : Member) (w : World) : World :=
  match w.statics m with
  | some h => { w with trace := w.trace ++ callEvents self m h }
  | none =>
    match self._javaPart.getClass.getMethodID m.hostName m.signature with
    | .ok h =>
      { statics := Function.update w.statics m (some h),
        trace := w.trace ++
          Event.lookup self._javaPart.getClass.id m.hostName m.signature (some h)
            :: callEvents self m h }
    | .error _ =>
      { w with trace := w.trace ++
          [Event.lookup self._javaPart.getClass.id m.hostName m.signature none] }

/-- What `getExternalMemorySize` does with the handle `h` in hand. -/
def memCall (sizeBits : Nat) (self : JHybridImageSpec) (h : JMethod) : Outcome Value :=
  match self._javaPart.callLongMethod h with
  | .ok n => .returned (.size_t (toSizeT sizeBits n))
  | .error _ => .terminated

/-- The outcome of `getExternalMemorySize`, spelled out by cases on the static
and on the host's answers. -/
def memOutcome (sizeBits : Nat) (self : JHybridImageSpec) (w : World) : Outcome Value :=
  match w.statics .getExternalMemorySize with
  | some h => memCall sizeBits self h
  | none =>
    match self._javaPart.getClass.getMethodID "getMemorySize" "jlong()" with
    | .ok h => memCall sizeBits self h
    | .error _ => .terminated

/-- The number of successful lookups under a member's name is one when its
static is initialised and zero when it is not. -/
def LookupsMatchStatics (w : World) : Prop :=
  ∀ m : Member, (successfulLookupsOf m.hostName w.trace).length
    = if (w.statics m).isSome then 1 else 0

/-- The member a stub message names, read off the message alone. -/
def memberOfMessage (msg : String) : Option Member :=
  [Member.getSize, Member.getPixelFormat, Member.getSomeSettableProp,
    Member.setSomeSettableProp, Member.toArrayBuffer, Member.saveToFile].find?
    fun m => msg == m.cppName ++ notYetImplemented

/-- Whether `needle` occurs in `text`. -/
def occursIn (needle : List Char) : List Char → Bool
  | [] => needle.isEmpty
  | c :: rest => needle.isPrefixOf (c :: rest) || occursIn needle rest

/-- Whether the text of a failure mentions `name`. -/
def Exn.mentions (name : String) : Exn → Bool
  | .runtime_error what => occursIn name.data what.data
  | .jni e => occursIn name.data e.what.data

/-! ## Example hosts -/

/-- A host class declaring every member; the handle of a method is the length
of its name. -/
def hybridImageClass : JClass :=
  { id := 1, getMethodID := fun name _ => .ok ⟨name.length⟩ }

/-- A host object of `hybridImageClass` that reports 4096 bytes. -/
def hybridImage : JObject :=
  { id := 10, getClass := hybridImageClass, callLongMethod := fun _ => .ok 4096 }

/-- A second host class declaring every member, with handles of its own. -/
def otherImageClass : JClass :=
  { id := 2, getMethodID := fun name _ => .ok ⟨100 + name.length⟩ }

/-- A host object of `otherImageClass` that reports 8192 bytes. -/
def otherImage : JObject :=
  { id := 20, getClass := otherImageClass, callLongMethod := fun _ => .ok 8192 }

/-- A host class declaring every member but `toArrayBuffer`. -/
def noToArrayBufferClass : JClass :=
  { id := 3,
    getMethodID := fun name _ =>
      if name = "toArrayBuffer" then .error ⟨"java.lang.NoSuchMethodError"⟩
      else .ok ⟨name.length⟩ }

/-- A host object of `noToArrayBufferClass`. -/
def noToArrayBuffer : JObject :=
  { id := 30, getClass := noToArrayBufferClass, callLongMethod := fun _ => .ok 4096 }

/-- A host class declaring every member but `getMemorySize`. -/
def noMemorySizeClass : JClass :=
  { id := 4,
    getMethodID := fun name _ =>
      if name = "getMemorySize" then .error ⟨"java.lang.NoSuchMethodError"⟩
      else .ok ⟨name.length⟩ }

/-- A host object of `noMemorySizeClass`. -/
def noMemorySize : JObject :=
  { id := 40, getClass := noMemorySizeClass,
    callLongMethod := fun _ => .error ⟨"java.lang.NoSuchMethodError"⟩ }

/-- A host object of `hybridImageClass` whose `getMemorySize` returns `-1`. -/
def negativeSize : JObject :=
  { id := 50, getClass := hybridImageClass, callLongMethod := fun _ => .ok (-1) }

/-! ## SwiftTestHybridObject.hpp -/

/-- The Swift-backed proxy: the identity of the C++ object and its field
`_swiftPart`, the host handle. -/
structure SwiftTestHybridObject where
  address : Nat
  _swiftPart : Nat
deriving DecidableEq, Repr

/-- Modelled from the spec: the registry of section 4.4 behind
`SwiftTestHybridObject::getHybridPart`, whose body is not part of the sources
at hand (the header only declares it): a mapping from host handle identity to
the live proxy instance, and the number of instances constructed so far. -/
structure Registry where
  live : List (Nat × SwiftTestHybridObject)
  constructed : Nat
deriving DecidableEq, Repr

/-- Modelled from the spec: the registry at process start. -/
def Registry.empty : Registry :=
  { live := [], constructed := 0 }

/-- Modelled from the spec: the static factory
`SwiftTestHybridObject::getHybridPart(swiftPart)` (only declared in the header)
is the `getOrCreate` of section 4.4: it returns the live instance of the host
handle, or constructs one through the private constructor and records it. -/
def SwiftTestHybridObject.getHybridPart (swiftPart : Nat) (r : Registry) :
    SwiftTestHybridObject × Registry :=
  match r.live.lookup swiftPart with
  | some p => (p, r)
  | none =>
    let p : SwiftTestHybridObject := { address := r.constructed, _swiftPart := swiftPart }
    (p, { live := (swiftPart, p) :: r.live, constructed := r.constructed + 1 })

/-- The failures of the registry. -/
inductive RegistryError where
  | AlreadyReleased
deriving DecidableEq, Repr

/-- Modelled from the spec: `release` of section 4.4 (not part of the sources
at hand): the entry of a live instance is pruned, releasing an instance that
is not live fails with `AlreadyReleased`. -/
def Registry.release (p : SwiftTestHybridObject) (r : Registry) :
    Except RegistryError Registry :=
  if r.live.lookup p._swiftPart = some p then
    .ok { r with live := r.live.filter fun entry => entry.1 != p._swiftPart }
  else
    .error .AlreadyReleased

/-- An operation on the registry. -/
inductive RegistryOp where
  | getHybridPart (swiftPart : Nat)
  | release (p : SwiftTestHybridObject)
deriving DecidableEq, Repr

/-- The registry after one operation; a failed `release` changes nothing. -/
def Registry.apply (r : Registry) : RegistryOp → Registry
  | .getHybridPart swiftPart => (SwiftTestHybridObject.getHybridPart swiftPart r).2
  | .release p =>
    match r.release p with
    | .ok r1 => r1
    | .error _ => r

/-- The registry after a sequence of operations from process start. -/
def Registry.after (ops : List RegistryOp) : Registry :=
  ops.foldl Registry.apply Registry.empty

/-- Every live instance was constructed earlier and is filed under its own
host handle. -/
def Registry.WellFormed (r : Registry) : Prop :=
  ∀ entry ∈ r.live, entry.2.address < r.constructed ∧ entry.2._swiftPart = entry.1

/-! ## Basic lemmas -/

theorem invoke_stub_eq (sizeBits : Nat) (self : JHybridImageSpec) (c : Call) (w : World)
    (hc : c.member.isStub = true) :
    c.invoke sizeBits self w = stubStep self c.member w := by
  cases c <;> first
    | (exact absurd hc (by decide))
    | (simp only [Call.invoke, Call.member, stubStep, JHybridImageSpec.getSize,
        JHybridImageSpec.getPixelFormat, JHybridImageSpec.getSomeSettableProp,
        JHybridImageSpec.setSomeSettableProp, JHybridImageSpec.toArrayBuffer,
        JHybridImageSpec.saveToFile, staticInit, getMethod, Member.hostName,
        Member.signature, Member.cppName, notYetImplemented]
       cases hs : w.statics _ <;> simp only []
       · cases hl : self._javaPart.getClass.getMethodID _ _ <;> simp [Outcome.map]
       · simp [Outcome.map])

theorem invoke_mem_eq (sizeBits : Nat) (self : JHybridImageSpec) (w : World) :
    Call.getExternalMemorySize.invoke sizeBits self w
      = (memOutcome sizeBits self w, worldStep self .getExternalMemorySize w) := by
  simp only [Call.invoke, JHybridImageSpec.getExternalMemorySize, staticInit, getMethod,
    callLong, memOutcome, memCall, worldStep, callEvents, Member.isStub, Member.hostName,
    Member.signature]
  cases hs : w.statics .getExternalMemorySize with
  | some h =>
    cases hc : self._javaPart.callLongMethod h <;> simp [noexcept, Outcome.map, hc]
  | none =>
    cases hl : self._javaPart.getClass.getMethodID "getMemorySize" "jlong()" with
    | error e => simp [noexcept, Outcome.map]
    | ok h =>
      cases hc : self._javaPart.callLongMethod h <;> simp [noexcept, Outcome.map, hc]

theorem stubStep_world (self : JHybridImageSpec) (m : Member) (w : World)
    (hm : m.isStub = true) : (stubStep self m w).2 = worldStep self m w := by
  unfold stubStep worldStep callEvents
  cases hs : w.statics m with
  | some h => simp [hm]
  | none =>
    cases hl : self._javaPart.getClass.getMethodID m.hostName m.signature <;> simp [hm]

theorem invoke_world (sizeBits : Nat) (self : JHybridImageSpec) (c : Call) (w : World) :
    (c.invoke sizeBits self w).2 = worldStep self c.member w := by
  by_cases hc : c.member.isStub = true
  · rw [invoke_stub_eq sizeBits self c w hc, stubStep_world self c.member w hc]
  · cases c <;> first
      | (exact absurd rfl hc)
      | (rw [invoke_mem_eq]; rfl)

/-! ## Traces -/

theorem hostName_injective (m1 m2 : Member) (h : m1.hostName = m2.hostName) : m1 = m2 := by
  cases m1 <;> cases m2 <;> first | rfl | (exact absurd h (by decide))

theorem lookupsOf_append (n : String) (a b : List Event) :
    lookupsOf n (a ++ b) = lookupsOf n a ++ lookupsOf n b := by
  simp [lookupsOf]

theorem successfulLookupsOf_append (n : String) (a b : List Event) :
    successfulLookupsOf n (a ++ b) = successfulLookupsOf n a ++ successfulLookupsOf n b := by
  simp [successfulLookupsOf]

theorem lookupsOf_callEvents (n : String) (self : JHybridImageSpec) (m : Member) (h : JMethod) :
    lookupsOf n (callEvents self m h) = [] := by
  unfold callEvents lookupsOf
  split <;> simp

theorem successfulLookupsOf_callEvents (n : String) (self : JHybridImageSpec) (m : Member)
    (h : JMethod) : successfulLookupsOf n (callEvents self m h) = [] := by
  unfold callEvents successfulLookupsOf
  split <;> simp

/-- A call whose static is initialised changes no static and makes no lookup. -/
theorem worldStep_cached (self : JHybridImageSpec) (m : Member) (w : World) (h : JMethod)
    (hs : w.statics m = some h) :
    (worldStep self m w).statics = w.statics
      ∧ (worldStep self m w).trace = w.trace ++ callEvents self m h := by
  simp [worldStep, hs]

/-- A call whose static is not initialised and whose lookup succeeds. -/
theorem worldStep_found (self : JHybridImageSpec) (m : Member) (w : World) (h : JMethod)
    (hs : w.statics m = none)
    (hl : self._javaPart.getClass.getMethodID m.hostName m.signature = .ok h) :
    (worldStep self m w).statics = Function.update w.statics m (some h)
      ∧ (worldStep self m w).trace = w.trace ++
          Event.lookup self._javaPart.getClass.id m.hostName m.signature (some h)
            :: callEvents self m h := by
  simp [worldStep, hs, hl]

/-- A call whose static is not initialised and whose lookup fails. -/
theorem worldStep_missing (self : JHybridImageSpec) (m : Member) (w : World) (e : JniException)
    (hs : w.statics m = none)
    (hl : self._javaPart.getClass.getMethodID m.hostName m.signature = .error e) :
    (worldStep self m w).statics = w.statics
      ∧ (worldStep self m w).trace = w.trace ++
          [Event.lookup self._javaPart.getClass.id m.hostName m.signature none] := by
  simp [worldStep, hs, hl]

/-- The three ways a call can go, as far as the state is concerned. -/
theorem worldStep_cases (self : JHybridImageSpec) (m : Member) (w : World) :
    (∃ h, w.statics m = some h ∧ (worldStep self m w).statics = w.statics
        ∧ (worldStep self m w).trace = w.trace ++ callEvents self m h)
    ∨ (∃ h, w.statics m = none
        ∧ self._javaPart.getClass.getMethodID m.hostName m.signature = .ok h
        ∧ (worldStep self m w).statics = Function.update w.statics m (some h)
        ∧ (worldStep self m w).trace = w.trace ++
            Event.lookup self._javaPart.getClass.id m.hostName m.signature (some h)
              :: callEvents self m h)
    ∨ (∃ e, w.statics m = none
        ∧ self._javaPart.getClass.getMethodID m.hostName m.signature = .error e
        ∧ (worldStep self m w).statics = w.statics
        ∧ (worldStep self m w).trace = w.trace ++
            [Event.lookup self._javaPart.getClass.id m.hostName m.signature none]) := by
  cases hs : w.statics m with
  | some h => exact Or.inl ⟨h, rfl, worldStep_cached self m w h hs⟩
  | none =>
    cases hl : self._javaPart.getClass.getMethodID m.hostName m.signature with
    | ok h => exact Or.inr (Or.inl ⟨h, rfl, rfl, worldStep_found self m w h hs hl⟩)
    | error e => exact Or.inr (Or.inr ⟨e, rfl, rfl, worldStep_missing self m w e hs hl⟩)

/-- A call of `m` leaves the static of any other member alone. -/
theorem worldStep_statics_other (self : JHybridImageSpec) (m m2 : Member) (w : World)
    (hne : m2 ≠ m) : (worldStep self m w).statics m2 = w.statics m2 := by
  rcases worldStep_cases self m w with ⟨h, _, hst, _⟩ | ⟨h, _, _, hst, _⟩ | ⟨e, _, _, hst, _⟩
  · rw [hst]
  · rw [hst, Function.update_noteq hne]
  · rw [hst]

/-- A call of `m` makes no lookup under the name of any other member. -/
theorem worldStep_lookups_other (self : JHybridImageSpec) (m m2 : Member) (w : World)
    (hne : m2 ≠ m) :
    lookupsOf m2.hostName (worldStep self m w).trace = lookupsOf m2.hostName w.trace := by
  have hn : ¬ m.hostName = m2.hostName := fun h => hne (hostName_injective m m2 h).symm
  rcases worldStep_cases self m w with ⟨h, _, _, htr⟩ | ⟨h, _, _, _, htr⟩ | ⟨e, _, _, _, htr⟩
  · rw [htr, lookupsOf_append, lookupsOf_callEvents, List.append_nil]
  · rw [htr, lookupsOf_append]
    have : lookupsOf m2.hostName
        (Event.lookup self._javaPart.getClass.id m.hostName m.signature (some h)
          :: callEvents self m h) = [] := by
      have hc := lookupsOf_callEvents m2.hostName self m h
      unfold lookupsOf at hc ⊢
      rw [List.filter_cons, hc]
      simp [hn]
    rw [this, List.append_nil]
  · rw [htr, lookupsOf_append]
    simp [lookupsOf, hn]

/-- A successful lookup is in particular a lookup. -/
theorem successfulLookupsOf_eq_nil_of_lookupsOf (n : String) (t : List Event)
    (h : lookupsOf n t = []) : successfulLookupsOf n t = [] := by
  unfold lookupsOf at h
  unfold successfulLookupsOf
  rw [List.filter_eq_nil_iff] at h ⊢
  intro ev hev
  have := h ev hev
  cases ev with
  | call _ _ => simp
  | lookup c nm sg f =>
    cases f with
    | none => simp
    | some _ => simpa using this

/-! ## Call sequences -/

theorem run_cons (sizeBits : Nat) (i : Invocation) (rest : List Invocation) (w : World) :
    run sizeBits (i :: rest) w
      = match i.call.invoke sizeBits i.self w with
        | (.terminated, w1) => w1
        | (_, w1) => run sizeBits rest w1 := by
  rw [run]

/-- One step of `run`: either the process terminated in the first call, or the
rest runs from the state the first call left. -/
theorem run_cons_cases (sizeBits : Nat) (i : Invocation) (rest : List Invocation) (w : World) :
    run sizeBits (i :: rest) w = worldStep i.self i.call.member w
      ∨ run sizeBits (i :: rest) w = run sizeBits rest (worldStep i.self i.call.member w) := by
  have hw := invoke_world sizeBits i.self i.call w
  rw [run_cons]
  rcases hr : i.call.invoke sizeBits i.self w with ⟨o, w1⟩
  rw [hr] at hw
  simp only at hw
  subst hw
  cases o <;> simp

/-- A property of the state kept by every call of a sequence holds after the
sequence. -/
theorem run_induction (P : World → Prop) (sizeBits : Nat) (cs : List Invocation)
    (hstep : ∀ i ∈ cs, ∀ w, P w → P (worldStep i.self i.call.member w)) :
    ∀ w, P w → P (run sizeBits cs w) := by
  induction cs with
  | nil => intro w hw; simpa [run] using hw
  | cons i rest ih =>
    intro w hw
    have h1 : P (worldStep i.self i.call.member w) := hstep i (List.mem_cons_self _ _) w hw
    rcases run_cons_cases sizeBits i rest w with h | h
    · rw [h]; exact h1
    · rw [h]
      exact ih (fun j hj => hstep j (List.mem_cons_of_mem _ hj)) _ h1

/-- Running a concatenation is running some sequence after the first part:
the second part, or nothing when the process terminated in the first. -/
theorem run_append (sizeBits : Nat) (cs1 cs2 : List Invocation) :
    ∀ w, run sizeBits (cs1 ++ cs2) w = run sizeBits cs2 (run sizeBits cs1 w)
      ∨ run sizeBits (cs1 ++ cs2) w = run sizeBits cs1 w := by
  induction cs1 with
  | nil => intro w; left; simp [run]
  | cons i rest ih =>
    intro w
    rw [List.cons_append]
    simp only [run_cons]
    rcases i.call.invoke sizeBits i.self w with ⟨o, w1⟩
    cases o with
    | terminated => right; simp
    | returned v => simpa using ih w1
    | threw e => simpa using ih w1

theorem lookupsMatchStatics_init : LookupsMatchStatics World.init := by
  intro m
  simp [World.init, successfulLookupsOf]

theorem lookupsMatchStatics_step (self : JHybridImageSpec) (m : Member) (w : World)
    (hw : LookupsMatchStatics w) : LookupsMatchStatics (worldStep self m w) := by
  intro m2
  by_cases hne : m2 = m
  · subst hne
    have h0 := hw m2
    rcases worldStep_cases self m2 w with ⟨h, hs, hst, htr⟩ | ⟨h, hs, _, hst, htr⟩
      | ⟨e, hs, _, hst, htr⟩
    · rw [hst, htr, successfulLookupsOf_append, successfulLookupsOf_callEvents,
        List.append_nil]
      exact h0
    · rw [hs] at h0
      have hc := successfulLookupsOf_callEvents m2.hostName self m2 h
      have h1 : successfulLookupsOf m2.hostName
          (Event.lookup self._javaPart.getClass.id m2.hostName m2.signature (some h)
            :: callEvents self m2 h)
          = [Event.lookup self._javaPart.getClass.id m2.hostName m2.signature (some h)] := by
        unfold successfulLookupsOf at hc ⊢
        rw [List.filter_cons, hc]
        simp
      rw [hst, htr, successfulLookupsOf_append, h1, List.length_append]
      simp at h0
      simp [h0]
    · rw [hst, htr, successfulLookupsOf_append]
      have h1 : successfulLookupsOf m2.hostName
          [Event.lookup self._javaPart.getClass.id m2.hostName m2.signature none] = [] := by
        simp [successfulLookupsOf]
      rw [h1, List.append_nil]
      exact h0
  · rw [worldStep_statics_other self m m2 w hne]
    have h1 := worldStep_lookups_other self m m2 w hne
    have h2 : successfulLookupsOf m2.hostName (worldStep self m w).trace
        = successfulLookupsOf m2.hostName w.trace := by
      rcases worldStep_cases self m w with ⟨h, _, _, htr⟩ | ⟨h, _, _, _, htr⟩ | ⟨e, _, _, _, htr⟩
      all_goals
        rw [htr, lookupsOf_append] at h1
        rw [htr, successfulLookupsOf_append,
          successfulLookupsOf_eq_nil_of_lookupsOf _ _ (List.append_right_eq_self.mp h1),
          List.append_nil]
    rw [h2]
    exact hw m2

theorem lookupsMatchStatics_run (sizeBits : Nat) (cs : List Invocation) :
    LookupsMatchStatics (run sizeBits cs World.init) :=
  run_induction LookupsMatchStatics sizeBits cs
    (fun i _ w hw => lookupsMatchStatics_step i.self i.call.member w hw)
    World.init lookupsMatchStatics_init

/-- While no call addresses `m`, no lookup under the name of `m` is added. -/
theorem run_lookups_of_not_called (sizeBits : Nat) (cs : List Invocation) (m : Member)
    (hcs : ∀ i ∈ cs, i.call.member ≠ m) (w : World) :
    lookupsOf m.hostName (run sizeBits cs w).trace = lookupsOf m.hostName w.trace :=
  run_induction (fun w1 => lookupsOf m.hostName w1.trace = lookupsOf m.hostName w.trace)
    sizeBits cs
    (fun i hi w1 hw1 => by
      show lookupsOf m.hostName (worldStep i.self i.call.member w1).trace
        = lookupsOf m.hostName w.trace
      rw [worldStep_lookups_other i.self i.call.member m w1 (fun h => hcs i hi h.symm)]
      exact hw1)
    w rfl

/-- Once the static of `m` is initialised, no call sequence adds a lookup
under the name of `m`. -/
theorem run_lookups_of_cached (sizeBits : Nat) (cs : List Invocation) (m : Member) (w : World)
    (hs : (w.statics m).isSome = true) :
    lookupsOf m.hostName (run sizeBits cs w).trace = lookupsOf m.hostName w.trace := by
  have key := run_induction
    (fun w1 => (w1.statics m).isSome = true
      ∧ lookupsOf m.hostName w1.trace = lookupsOf m.hostName w.trace)
    sizeBits cs
    (fun i _ w1 hw1 => by
      obtain ⟨hs1, hl1⟩ := hw1
      by_cases hne : m = i.call.member
      · subst hne
        obtain ⟨h, hh⟩ := Option.isSome_iff_exists.mp hs1
        obtain ⟨hst, htr⟩ := worldStep_cached i.self i.call.member w1 h hh
        refine ⟨by rw [hst]; exact hs1, ?_⟩
        rw [htr, lookupsOf_append, lookupsOf_callEvents, List.append_nil]
        exact hl1
      · refine ⟨by rw [worldStep_statics_other i.self i.call.member m w1 hne]; exact hs1, ?_⟩
        rw [worldStep_lookups_other i.self i.call.member m w1 hne]
        exact hl1)
    w ⟨hs, rfl⟩
  exact key.2

/-- An initialised static keeps its handle through every call sequence. -/
theorem run_statics_of_cached (sizeBits : Nat) (cs : List Invocation) (m : Member) (w : World)
    (h : JMethod) (hs : w.statics m = some h) :
    (run sizeBits cs w).statics m = some h :=
  run_induction (fun w1 => w1.statics m = some h) sizeBits cs
    (fun i _ w1 hw1 => by
      show (worldStep i.self i.call.member w1).statics m = some h
      by_cases hne : m = i.call.member
      · subst hne
        rw [(worldStep_cached i.self i.call.member w1 h hw1).1]
        exact hw1
      · rw [worldStep_statics_other i.self i.call.member m w1 hne]
        exact hw1)
    w hs

/-! ## The six generated members -/

theorem stubStep_threw (self : JHybridImageSpec) (m : Member) (w : World) :
    ∃ e, (stubStep self m w).1 = Outcome.threw e := by
  unfold stubStep
  cases w.statics m with
  | some h => exact ⟨_, rfl⟩
  | none =>
    cases self._javaPart.getClass.getMethodID m.hostName m.signature with
    | ok h => exact ⟨_, rfl⟩
    | error e => exact ⟨_, rfl⟩

theorem invoke_stub_threw (sizeBits : Nat) (self : JHybridImageSpec) (c : Call) (w : World)
    (hc : c.member.isStub = true) : ∃ e, (c.invoke sizeBits self w).1 = Outcome.threw e := by
  rw [invoke_stub_eq sizeBits self c w hc]
  exact stubStep_threw self c.member w

theorem map_eq_threw {α β : Type} (f : α → β) (o : Outcome α) (e : Exn)
    (h : o.map f = Outcome.threw e) : o = Outcome.threw e := by
  cases o <;> simp_all [Outcome.map]

/-- The outcome of a stub call is one of two failures. -/
theorem stubStep_outcome (self : JHybridImageSpec) (m : Member) (w : World) :
    (((w.statics m).isSome = true
          ∨ ∃ h, self._javaPart.getClass.getMethodID m.hostName m.signature = .ok h)
        ∧ (stubStep self m w).1
          = .threw (.runtime_error (m.cppName ++ notYetImplemented)))
    ∨ (∃ e, w.statics m = none
        ∧ self._javaPart.getClass.getMethodID m.hostName m.signature = .error e
        ∧ (stubStep self m w).1 = .threw (.jni e)) := by
  unfold stubStep
  cases hs : w.statics m with
  | some h => left; simp
  | none =>
    cases hl : self._javaPart.getClass.getMethodID m.hostName m.signature with
    | ok h => left; simp
    | error e => right; exact ⟨e, rfl, rfl, rfl⟩

theorem stubMessage_injective (m1 m2 : Member)
    (h : m1.cppName ++ notYetImplemented
      = m2.cppName ++ notYetImplemented) : m1 = m2 := by
  cases m1 <;> cases m2 <;> first | rfl | (exact absurd h (by decide))

theorem memberOfMessage_stub (m : Member) (hm : m.isStub = true) :
    memberOfMessage (m.cppName ++ notYetImplemented) = some m := by
  cases m <;> first | (exact absurd hm (by decide)) | decide

theorem stubMessage_no_interface (m : Member) :
    (Exn.runtime_error (m.cppName ++ notYetImplemented)).mentions "Image" = false
      ∧ (Exn.runtime_error (m.cppName ++ notYetImplemented)).mentions "image" = false := by
  cases m <;> decide

/-- No exception leaves a `noexcept` function. -/
theorem noexcept_ne_threw {α : Type} (body : Outcome α × World) (e : Exn) :
    (noexcept body).1 ≠ Outcome.threw e := by
  rcases body with ⟨o, w⟩
  cases o <;> simp [noexcept]

theorem mem_callEvents (self : JHybridImageSpec) (m : Member) (h : JMethod) (ev : Event)
    (hev : ev ∈ callEvents self m h) : ev = Event.call h self._javaPart.id := by
  unfold callEvents at hev
  split at hev <;> simp_all

/-- Every lookup a call of `m` makes asks for the declared name of `m`. -/
theorem worldStep_lookup_name (self : JHybridImageSpec) (m : Member) (w : World) :
    ∃ evs, (worldStep self m w).trace = w.trace ++ evs
      ∧ ∀ cls name sig found, Event.lookup cls name sig found ∈ evs → name = m.hostName := by
  rcases worldStep_cases self m w with ⟨h, _, _, htr⟩ | ⟨h, _, _, _, htr⟩ | ⟨e, _, _, _, htr⟩
  · refine ⟨_, htr, ?_⟩
    intro cls name sig found hmem
    exact absurd (mem_callEvents self m h _ hmem) (by simp)
  · refine ⟨_, htr, ?_⟩
    intro cls name sig found hmem
    rcases List.mem_cons.mp hmem with heq | hmem
    · injection heq with _ hname
    · exact absurd (mem_callEvents self m h _ hmem) (by simp)
  · refine ⟨_, htr, ?_⟩
    intro cls name sig found hmem
    rcases List.mem_singleton.mp hmem with heq
    injection heq with _ hname

theorem callEvents_stub (self : JHybridImageSpec) (m : Member) (h : JMethod)
    (hm : m.isStub = true) : callEvents self m h = [] := by
  simp [callEvents, hm]

/-! ## The registry -/

theorem lookup_some_mem (h : Nat) (p : SwiftTestHybridObject) :
    ∀ l : List (Nat × SwiftTestHybridObject), l.lookup h = some p → (h, p) ∈ l := by
  intro l
  induction l with
  | nil => intro hl; simp at hl
  | cons entry rest ih =>
    intro hl
    obtain ⟨k, v⟩ := entry
    rw [List.lookup_cons] at hl
    by_cases hk : h = k
    · subst hk
      simp at hl
      subst hl
      exact List.mem_cons_self _ _
    · have hb : (h == k) = false := by simpa using hk
      rw [hb] at hl
      exact List.mem_cons_of_mem _ (ih hl)

theorem lookup_filter_ne (h : Nat) :
    ∀ l : List (Nat × SwiftTestHybridObject),
      (l.filter fun entry => entry.1 != h).lookup h = none := by
  intro l
  induction l with
  | nil => simp
  | cons entry rest ih =>
    obtain ⟨k, v⟩ := entry
    by_cases hk : k = h
    · subst hk
      simpa using ih
    · have hb : (k != h) = true := by simpa using hk
      rw [List.filter_cons, hb]
      simp only [if_true]
      rw [List.lookup_cons]
      have hb2 : (h == k) = false := by simpa using fun e : h = k => hk e.symm
      rw [hb2]
      exact ih

theorem wellFormed_empty : Registry.empty.WellFormed := by
  intro entry hentry
  simp [Registry.empty] at hentry

theorem wellFormed_getHybridPart (h : Nat) (r : Registry) (hr : r.WellFormed) :
    (SwiftTestHybridObject.getHybridPart h r).2.WellFormed := by
  unfold SwiftTestHybridObject.getHybridPart
  cases hl : r.live.lookup h with
  | some p => exact hr
  | none =>
    intro entry hentry
    rcases List.mem_cons.mp hentry with heq | hmem
    · subst heq
      exact ⟨Nat.lt_succ_self _, rfl⟩
    · exact ⟨Nat.lt_succ_of_lt (hr entry hmem).1, (hr entry hmem).2⟩

theorem wellFormed_apply (r : Registry) (op : RegistryOp) (hr : r.WellFormed) :
    (r.apply op).WellFormed := by
  cases op with
  | getHybridPart h => exact wellFormed_getHybridPart h r hr
  | release p =>
    by_cases hp : r.live.lookup p._swiftPart = some p
    · simp only [Registry.apply, Registry.release, if_pos hp]
      intro entry hentry
      exact hr entry (List.mem_of_mem_filter hentry)
    · simp only [Registry.apply, Registry.release, if_neg hp]
      exact hr

theorem wellFormed_foldl (ops : List RegistryOp) :
    ∀ r : Registry, r.WellFormed → (ops.foldl Registry.apply r).WellFormed := by
  induction ops with
  | nil => intro r hr; exact hr
  | cons op rest ih =>
    intro r hr
    exact ih _ (wellFormed_apply r op hr)

theorem wellFormed_after (ops : List RegistryOp) : (Registry.after ops).WellFormed :=
  wellFormed_foldl ops Registry.empty wellFormed_empty

/-- After `getHybridPart`, the returned instance is the live instance of the
host handle. -/
theorem getHybridPart_live (h : Nat) (r : Registry) :
    (SwiftTestHybridObject.getHybridPart h r).2.live.lookup h
      = some (SwiftTestHybridObject.getHybridPart h r).1 := by
  unfold SwiftTestHybridObject.getHybridPart
  cases hl : r.live.lookup h with
  | some p => exact hl
  | none => simp [List.lookup_cons]

/-! ## The claims -/

/-- C1: each of the six generated members `getSize`, `getPixelFormat`,
`getSomeSettableProp`, `setSomeSettableProp`, `toArrayBuffer` and `saveToFile`,
for every argument, every host object and every state of the statics, ends by
throwing: it never returns a value. -/
theorem C1_generated_members_always_fail (self : JHybridImageSpec) (w : World)
    (someSettableProp : Double) (format : ImageFormat) (path : String)
    (onFinished : Func_void_std__string) :
    (∃ e, (self.getSize w).1 = Outcome.threw e)
    ∧ (∃ e, (self.getPixelFormat w).1 = Outcome.threw e)
    ∧ (∃ e, (self.getSomeSettableProp w).1 = Outcome.threw e)
    ∧ (∃ e, (self.setSomeSettableProp someSettableProp w).1 = Outcome.threw e)
    ∧ (∃ e, (self.toArrayBuffer format w).1 = Outcome.threw e)
    ∧ (∃ e, (self.saveToFile path onFinished w).1 = Outcome.threw e) := by
  refine ⟨?_, ?_, ?_, ?_, ?_, ?_⟩
  · obtain ⟨e, he⟩ := invoke_stub_threw 0 self .getSize w rfl
    exact ⟨e, map_eq_threw _ _ e he⟩
  · obtain ⟨e, he⟩ := invoke_stub_threw 0 self .getPixelFormat w rfl
    exact ⟨e, map_eq_threw _ _ e he⟩
  · obtain ⟨e, he⟩ := invoke_stub_threw 0 self .getSomeSettableProp w rfl
    exact ⟨e, map_eq_threw _ _ e he⟩
  · obtain ⟨e, he⟩ := invoke_stub_threw 0 self (.setSomeSettableProp someSettableProp) w rfl
    exact ⟨e, map_eq_threw _ _ e he⟩
  · obtain ⟨e, he⟩ := invoke_stub_threw 0 self (.toArrayBuffer format) w rfl
    exact ⟨e, map_eq_threw _ _ e he⟩
  · obtain ⟨e, he⟩ := invoke_stub_threw 0 self (.saveToFile path onFinished) w rfl
    exact ⟨e, map_eq_threw _ _ e he⟩

/-- C2, as stated, fails: on a host object without `toArrayBuffer`, at process
start, `toArrayBuffer(PNG)` fails with the exception of the handle lookup and
not with the stub's not-implemented error. -/
theorem C2_counterexample :
    noToArrayBuffer.getClass.getMethodID "toArrayBuffer" "double(JImageFormat)"
        = .error ⟨"java.lang.NoSuchMethodError"⟩
    ∧ (JHybridImageSpec.toArrayBuffer ⟨noToArrayBuffer⟩ ImageFormat.PNG World.init).1
        = Outcome.threw (Exn.jni ⟨"java.lang.NoSuchMethodError"⟩)
    ∧ (JHybridImageSpec.toArrayBuffer ⟨noToArrayBuffer⟩ ImageFormat.PNG World.init).1
        ≠ Outcome.threw (Exn.runtime_error "toArrayBuffer(...) is not yet implemented!") := by
  refine ⟨rfl, rfl, ?_⟩
  decide

/-- C2, amended: on a host object without `toArrayBuffer`, `toArrayBuffer(format)`
returns no buffer for any format; while the static of `toArrayBuffer` is not
initialised it fails with the exception of the handle lookup, and once the
static is initialised it fails with the runtime error
"toArrayBuffer(...) is not yet implemented!". -/
theorem C2_toArrayBuffer_on_missing_member (self : JHybridImageSpec) (format : ImageFormat)
    (w : World) (e : JniException)
    (hmissing : self._javaPart.getClass.getMethodID "toArrayBuffer" "double(JImageFormat)"
      = .error e) :
    (∀ v, (self.toArrayBuffer format w).1 ≠ Outcome.returned v)
    ∧ (w.statics .toArrayBuffer = none →
        (self.toArrayBuffer format w).1 = Outcome.threw (Exn.jni e))
    ∧ ((w.statics .toArrayBuffer).isSome = true →
        (self.toArrayBuffer format w).1
          = Outcome.threw (Exn.runtime_error "toArrayBuffer(...) is not yet implemented!")) := by
  unfold JHybridImageSpec.toArrayBuffer staticInit getMethod
  cases hs : w.statics .toArrayBuffer with
  | some h => simp
  | none => simp [hmissing]

/-- Witness for `C2_toArrayBuffer_on_missing_member`: the host object
`noToArrayBuffer`, format `PNG`, at process start. -/
theorem C2_toArrayBuffer_on_missing_member_witness :
    (∀ v, (JHybridImageSpec.toArrayBuffer ⟨noToArrayBuffer⟩ ImageFormat.PNG World.init).1
        ≠ Outcome.returned v)
    ∧ (World.init.statics .toArrayBuffer = none →
        (JHybridImageSpec.toArrayBuffer ⟨noToArrayBuffer⟩ ImageFormat.PNG World.init).1
          = Outcome.threw (Exn.jni ⟨"java.lang.NoSuchMethodError"⟩))
    ∧ ((World.init.statics .toArrayBuffer).isSome = true →
        (JHybridImageSpec.toArrayBuffer ⟨noToArrayBuffer⟩ ImageFormat.PNG World.init).1
          = Outcome.threw (Exn.runtime_error "toArrayBuffer(...) is not yet implemented!")) :=
  C2_toArrayBuffer_on_missing_member ⟨noToArrayBuffer⟩ ImageFormat.PNG World.init
    ⟨"java.lang.NoSuchMethodError"⟩ rfl

/-- C3, as stated, fails: the failure that leaves `getSize` on a host object
declaring every member is the runtime error "getSize(...) is not yet
implemented!", whose text names the member but no interface. -/
theorem C3_counterexample :
    (JHybridImageSpec.getSize ⟨hybridImage⟩ World.init).1
        = Outcome.threw (Exn.runtime_error "getSize(...) is not yet implemented!")
    ∧ (Exn.runtime_error "getSize(...) is not yet implemented!").mentions "getSize" = true
    ∧ (Exn.runtime_error "getSize(...) is not yet implemented!").mentions "Image" = false
    ∧ (Exn.runtime_error "getSize(...) is not yet implemented!").mentions "image" = false := by
  refine ⟨rfl, ?_, ?_, ?_⟩ <;> decide

/-- C3, amended: a failure that leaves a call of one of the six members is
either the stub's own runtime error, whose message alone determines the member
and mentions no interface, or the exception of the failed handle lookup,
passed on unchanged. -/
theorem C3_failure_names_member_only (sizeBits : Nat) (self : JHybridImageSpec) (c : Call)
    (w : World) (hc : c.member.isStub = true) :
    (∃ msg, (c.invoke sizeBits self w).1 = Outcome.threw (Exn.runtime_error msg)
        ∧ memberOfMessage msg = some c.member
        ∧ (Exn.runtime_error msg).mentions "Image" = false)
    ∨ (∃ e, self._javaPart.getClass.getMethodID c.member.hostName c.member.signature
          = .error e
        ∧ (c.invoke sizeBits self w).1 = Outcome.threw (Exn.jni e)) := by
  rw [invoke_stub_eq sizeBits self c w hc]
  rcases stubStep_outcome self c.member w with ⟨_, h⟩ | ⟨e, _, hl, h⟩
  · exact Or.inl ⟨_, h, memberOfMessage_stub c.member hc,
      (stubMessage_no_interface c.member).1⟩
  · exact Or.inr ⟨e, hl, h⟩

/-- Witness for `C3_failure_names_member_only`: `saveToFile` on a host object
declaring every member, at process start. -/
theorem C3_failure_names_member_only_witness :
    (∃ msg, ((Call.saveToFile "a.png" ⟨0⟩).invoke 64 ⟨hybridImage⟩ World.init).1
          = Outcome.threw (Exn.runtime_error msg)
        ∧ memberOfMessage msg = some (Call.saveToFile "a.png" ⟨0⟩).member
        ∧ (Exn.runtime_error msg).mentions "Image" = false)
    ∨ (∃ e, hybridImage.getClass.getMethodID (Call.saveToFile "a.png" ⟨0⟩).member.hostName
          (Call.saveToFile "a.png" ⟨0⟩).member.signature = .error e
        ∧ ((Call.saveToFile "a.png" ⟨0⟩).invoke 64 ⟨hybridImage⟩ World.init).1
          = Outcome.threw (Exn.jni e)) :=
  C3_failure_names_member_only 64 ⟨hybridImage⟩ (Call.saveToFile "a.png" ⟨0⟩) World.init rfl

/-- C4, as stated, fails: on a host object without `getMemorySize`, at process
start, `getExternalMemorySize` does not return 0: the process is terminated. -/
theorem C4_counterexample :
    noMemorySize.getClass.getMethodID "getMemorySize" "jlong()"
        = .error ⟨"java.lang.NoSuchMethodError"⟩
    ∧ (JHybridImageSpec.getExternalMemorySize 64 ⟨noMemorySize⟩ World.init).1
        = Outcome.terminated
    ∧ (JHybridImageSpec.getExternalMemorySize 64 ⟨noMemorySize⟩ World.init).1
        ≠ Outcome.returned 0 := by
  refine ⟨rfl, rfl, ?_⟩
  decide

/-- C4, amended: `getExternalMemorySize` needs the size hook: on a host object
without `getMemorySize`, while the static of `getExternalMemorySize` is not
initialised, the call returns nothing and the process is terminated by the
lookup exception that cannot leave the `noexcept` function; and in no state
does `getExternalMemorySize` throw to its caller. -/
theorem C4_missing_hook_terminates (sizeBits : Nat) (self : JHybridImageSpec) (w : World)
    (e : JniException)
    (hs : w.statics .getExternalMemorySize = none)
    (hmissing : self._javaPart.getClass.getMethodID "getMemorySize" "jlong()" = .error e) :
    (self.getExternalMemorySize sizeBits w).1 = Outcome.terminated
    ∧ (self.getExternalMemorySize sizeBits w).2.trace
        = w.trace ++ [Event.lookup self._javaPart.getClass.id "getMemorySize" "jlong()" none]
    ∧ ∀ (w0 : World) (e0 : Exn),
        (self.getExternalMemorySize sizeBits w0).1 ≠ Outcome.threw e0 := by
  refine ⟨?_, ?_, ?_⟩
  · simp [JHybridImageSpec.getExternalMemorySize, staticInit, getMethod, hs, hmissing,
      noexcept]
  · simp [JHybridImageSpec.getExternalMemorySize, staticInit, getMethod, hs, hmissing,
      noexcept]
  · intro w0 e0
    unfold JHybridImageSpec.getExternalMemorySize
    exact noexcept_ne_threw _ e0

/-- Witness for `C4_missing_hook_terminates`: the host object `noMemorySize`
at process start. -/
theorem C4_missing_hook_terminates_witness :
    (JHybridImageSpec.getExternalMemorySize 64 ⟨noMemorySize⟩ World.init).1
        = Outcome.terminated
    ∧ (JHybridImageSpec.getExternalMemorySize 64 ⟨noMemorySize⟩ World.init).2.trace
        = World.init.trace ++
          [Event.lookup noMemorySize.getClass.id "getMemorySize" "jlong()" none]
    ∧ ∀ (w0 : World) (e0 : Exn),
        (JHybridImageSpec.getExternalMemorySize 64 ⟨noMemorySize⟩ w0).1 ≠ Outcome.threw e0 :=
  C4_missing_hook_terminates 64 ⟨noMemorySize⟩ World.init ⟨"java.lang.NoSuchMethodError"⟩
    rfl rfl

/-- C5: identity-preserving bridging. In every state of the registry reached
from process start, `getHybridPart` for a host handle `h`, called twice, returns
the same instance and constructs nothing the second time; and once that very
proxy is released, `getHybridPart` for `h` constructs a new instance, distinct
from the released one and from every live one. -/
theorem C5_getHybridPart_identity (ops : List RegistryOp) (h : Nat) :
    (SwiftTestHybridObject.getHybridPart h
        (SwiftTestHybridObject.getHybridPart h (Registry.after ops)).2)
      = ((SwiftTestHybridObject.getHybridPart h (Registry.after ops)).1,
          (SwiftTestHybridObject.getHybridPart h (Registry.after ops)).2)
    ∧ ∃ released : Registry,
        Registry.release (SwiftTestHybridObject.getHybridPart h (Registry.after ops)).1
          (SwiftTestHybridObject.getHybridPart h (Registry.after ops)).2 = .ok released
        ∧ released.live.lookup h = none
        ∧ (SwiftTestHybridObject.getHybridPart h released).1
            = { address := released.constructed, _swiftPart := h }
        ∧ (SwiftTestHybridObject.getHybridPart h released).2.constructed
            = released.constructed + 1
        ∧ (∀ entry ∈ released.live,
            (SwiftTestHybridObject.getHybridPart h released).1 ≠ entry.2)
        ∧ (SwiftTestHybridObject.getHybridPart h released).1
            ≠ (SwiftTestHybridObject.getHybridPart h (Registry.after ops)).1 := by
  have hwf := wellFormed_getHybridPart h (Registry.after ops) (wellFormed_after ops)
  have hlive := getHybridPart_live h (Registry.after ops)
  generalize SwiftTestHybridObject.getHybridPart h (Registry.after ops) = a at hwf hlive
  obtain ⟨p, r1⟩ := a
  simp only at hwf hlive
  have hp := hwf (h, p) (lookup_some_mem h p r1.live hlive)
  simp only at hp
  refine ⟨?_, ?_⟩
  · simp [SwiftTestHybridObject.getHybridPart, hlive]
  · have hrel : Registry.release p r1
        = .ok { r1 with live := r1.live.filter fun entry => entry.1 != h } := by
      unfold Registry.release
      rw [hp.2, if_pos hlive]
    refine ⟨_, hrel, lookup_filter_ne h r1.live, ?_, ?_, ?_, ?_⟩
    · simp [SwiftTestHybridObject.getHybridPart, lookup_filter_ne h r1.live]
    · simp [SwiftTestHybridObject.getHybridPart, lookup_filter_ne h r1.live]
    · intro entry hentry heq
      have hlt := (hwf entry (List.mem_of_mem_filter hentry)).1
      rw [← heq] at hlt
      simp [SwiftTestHybridObject.getHybridPart, lookup_filter_ne h r1.live] at hlt
    · intro heq
      have hlt := hp.1
      simp only at heq
      rw [← heq] at hlt
      simp [SwiftTestHybridObject.getHybridPart, lookup_filter_ne h r1.live] at hlt

/-- Witness for `C5_getHybridPart_identity`: host handle 7, after proxies for
the handles 7 and 9 were obtained and the proxy of 7 was released. -/
theorem C5_getHybridPart_identity_witness :
    (SwiftTestHybridObject.getHybridPart 7
        (SwiftTestHybridObject.getHybridPart 7
          (Registry.after [.getHybridPart 7, .getHybridPart 9, .release ⟨0, 7⟩])).2)
      = (⟨2, 7⟩, ⟨[(7, ⟨2, 7⟩), (9, ⟨1, 9⟩)], 3⟩) :=
  (C5_getHybridPart_identity [.getHybridPart 7, .getHybridPart 9, .release ⟨0, 7⟩] 7).1.trans
    (by decide)

/-- C6, as stated, fails: after `getExternalMemorySize` on a first instance,
the same call on a second instance, whose own host class resolves
`getMemorySize` to another handle, makes no lookup and calls the host with the
handle resolved from the first instance. -/
theorem C6_counterexample :
    hybridImage.getClass.getMethodID "getMemorySize" "jlong()" = .ok ⟨13⟩
    ∧ otherImage.getClass.getMethodID "getMemorySize" "jlong()" = .ok ⟨113⟩
    ∧ (run 64
        [⟨⟨hybridImage⟩, .getExternalMemorySize⟩, ⟨⟨otherImage⟩, .getExternalMemorySize⟩]
        World.init).trace
      = [Event.lookup 1 "getMemorySize" "jlong()" (some ⟨13⟩), Event.call ⟨13⟩ 10,
          Event.call ⟨13⟩ 20] := by
  refine ⟨rfl, rfl, ?_⟩
  decide

/-- C6, amended: the method-handle caches are per member function and shared
by all instances. Once a call of a member on an instance `p` has resolved the
handle `h` from the host object of `p`, the static of that member holds `h`
through every later sequence of calls, of any members on any instances, and
no call of that sequence makes a lookup under the name of the member; a call
of the member on any instance `q`, made right away or after any such
sequence, leaves the statics as they are, makes no lookup on the host object
of `q` and hands `h` to every host call it makes; only while the static of the
member is not initialised does a call on `q` look the handle up on the class
of the host object of `q`. -/
theorem C6_cache_shared_by_instances (sizeBits : Nat) (p q : JHybridImageSpec)
    (cp cq : Call) (w : World) (h : JMethod)
    (hm : cq.member = cp.member)
    (hs : w.statics cp.member = none)
    (hl : p._javaPart.getClass.getMethodID cp.member.hostName cp.member.signature = .ok h) :
    (cp.invoke sizeBits p w).2.statics cp.member = some h
    ∧ (cq.invoke sizeBits q (cp.invoke sizeBits p w).2).2.statics
        = (cp.invoke sizeBits p w).2.statics
    ∧ (cq.invoke sizeBits q (cp.invoke sizeBits p w).2).2.trace
        = (cp.invoke sizeBits p w).2.trace ++ callEvents q cq.member h
    ∧ (∀ ev ∈ callEvents q cq.member h, ev = Event.call h q._javaPart.id)
    ∧ (∃ evs, (cq.invoke sizeBits q w).2.trace
        = w.trace ++ Event.lookup q._javaPart.getClass.id cq.member.hostName
            cq.member.signature
            (q._javaPart.getClass.getMethodID cq.member.hostName cq.member.signature).toOption
          :: evs)
    ∧ ∀ cs : List Invocation,
        (run sizeBits cs (cp.invoke sizeBits p w).2).statics cp.member = some h
        ∧ lookupsOf cp.member.hostName (run sizeBits cs (cp.invoke sizeBits p w).2).trace
            = lookupsOf cp.member.hostName (cp.invoke sizeBits p w).2.trace
        ∧ (cq.invoke sizeBits q (run sizeBits cs (cp.invoke sizeBits p w).2)).2.statics
            = (run sizeBits cs (cp.invoke sizeBits p w).2).statics
        ∧ (cq.invoke sizeBits q (run sizeBits cs (cp.invoke sizeBits p w).2)).2.trace
            = (run sizeBits cs (cp.invoke sizeBits p w).2).trace
              ++ callEvents q cq.member h := by
  have h1 : (cp.invoke sizeBits p w).2.statics cp.member = some h := by
    rw [invoke_world, (worldStep_found p cp.member w h hs hl).1, Function.update_same]
  refine ⟨h1, ?_, ?_, fun ev hev => mem_callEvents q cq.member h ev hev, ?_, ?_⟩
  · rw [invoke_world sizeBits q cq, hm]
    exact (worldStep_cached q cp.member _ h h1).1
  · rw [invoke_world sizeBits q cq, hm]
    exact (worldStep_cached q cp.member _ h h1).2
  · rw [invoke_world sizeBits q cq, hm]
    cases hq : q._javaPart.getClass.getMethodID cp.member.hostName cp.member.signature with
    | ok h2 => exact ⟨_, (worldStep_found q cp.member w h2 hs hq).2⟩
    | error e => exact ⟨[], (worldStep_missing q cp.member w e hs hq).2⟩
  · intro cs
    have h2 := run_statics_of_cached sizeBits cs cp.member _ h h1
    refine ⟨h2, ?_, ?_, ?_⟩
    · exact run_lookups_of_cached sizeBits cs cp.member _ (by rw [h1]; rfl)
    · rw [invoke_world sizeBits q cq, hm]
      exact (worldStep_cached q cp.member _ h h2).1
    · rw [invoke_world sizeBits q cq, hm]
      exact (worldStep_cached q cp.member _ h h2).2

/-- Witness for `C6_cache_shared_by_instances`: `getExternalMemorySize` on
`hybridImage` from process start, then `getSize` on `otherImage` and
`toArrayBuffer(PNG)` on `noToArrayBuffer`, then `getExternalMemorySize` on
`otherImage`: the last call makes no lookup and calls the host with the handle
13 resolved from `hybridImage`, although the class of `otherImage` resolves
`getMemorySize` to 113. -/
theorem C6_cache_shared_by_instances_witness :
    otherImage.getClass.getMethodID "getMemorySize" "jlong()" = .ok ⟨113⟩
    ∧ (run 64 [⟨⟨otherImage⟩, .getSize⟩, ⟨⟨noToArrayBuffer⟩, .toArrayBuffer ImageFormat.PNG⟩]
        (Call.getExternalMemorySize.invoke 64 ⟨hybridImage⟩ World.init).2).statics
        Member.getExternalMemorySize = some ⟨13⟩
    ∧ (Call.getExternalMemorySize.invoke 64 ⟨otherImage⟩
        (run 64 [⟨⟨otherImage⟩, .getSize⟩, ⟨⟨noToArrayBuffer⟩, .toArrayBuffer ImageFormat.PNG⟩]
          (Call.getExternalMemorySize.invoke 64 ⟨hybridImage⟩ World.init).2)).2.trace
      = [Event.lookup 1 "getMemorySize" "jlong()" (some ⟨13⟩), Event.call ⟨13⟩ 10,
          Event.lookup 2 "getSize" "JImageSize()" (some ⟨107⟩),
          Event.lookup 3 "toArrayBuffer" "double(JImageFormat)" none,
          Event.call ⟨13⟩ 20]
    ∧ (Call.getExternalMemorySize.invoke 64 ⟨otherImage⟩
        (Call.getExternalMemorySize.invoke 64 ⟨hybridImage⟩ World.init).2).2.trace
      = [Event.lookup 1 "getMemorySize" "jlong()" (some ⟨13⟩), Event.call ⟨13⟩ 10,
          Event.call ⟨13⟩ 20] :=
  ⟨rfl,
    ((C6_cache_shared_by_instances 64 ⟨hybridImage⟩ ⟨otherImage⟩ Call.getExternalMemorySize
      Call.getExternalMemorySize World.init ⟨13⟩ rfl rfl rfl).2.2.2.2.2
      [⟨⟨otherImage⟩, .getSize⟩, ⟨⟨noToArrayBuffer⟩, .toArrayBuffer ImageFormat.PNG⟩]).1,
    ((C6_cache_shared_by_instances 64 ⟨hybridImage⟩ ⟨otherImage⟩ Call.getExternalMemorySize
      Call.getExternalMemorySize World.init ⟨13⟩ rfl rfl rfl).2.2.2.2.2
      [⟨⟨otherImage⟩, .getSize⟩, ⟨⟨noToArrayBuffer⟩, .toArrayBuffer ImageFormat.PNG⟩]).2.2.2.trans
      (by decide),
    (C6_cache_shared_by_instances 64 ⟨hybridImage⟩ ⟨otherImage⟩ Call.getExternalMemorySize
      Call.getExternalMemorySize World.init ⟨13⟩ rfl rfl rfl).2.2.1.trans (by decide)⟩

/-- C7, as stated, fails: when the host returns `-1`, `getExternalMemorySize`
with a 64-bit `size_t` returns `2^64 - 1` and reports no failure; and when the
host returns `2^32`, with a 32-bit `size_t` it returns `0`. -/
theorem C7_counterexample :
    negativeSize.callLongMethod ⟨13⟩ = .ok (-1)
    ∧ (JHybridImageSpec.getExternalMemorySize 64 ⟨negativeSize⟩ World.init).1
        = Outcome.returned 18446744073709551615
    ∧ ((18446744073709551615 : Nat) : Int) ≠ -1
    ∧ (JHybridImageSpec.getExternalMemorySize 32
        ⟨{ id := 60, getClass := hybridImageClass, callLongMethod := fun _ => .ok 4294967296 }⟩
        World.init).1 = Outcome.returned 0 := by
  refine ⟨rfl, ?_, by decide, ?_⟩ <;> decide

/-- C7, amended: whenever the handle is available (cached, or resolved by the
lookup) and the host's `getMemorySize` returns `n`, `getExternalMemorySize`
reports no failure and returns `n` reduced modulo `2^sizeBits`, the width of
`size_t`; the returned size equals `n` exactly when `0 ≤ n < 2^sizeBits`. -/
theorem C7_size_is_host_value_mod_width (sizeBits : Nat) (self : JHybridImageSpec) (w : World)
    (h : JMethod) (n : Int)
    (hh : w.statics .getExternalMemorySize = some h
      ∨ (w.statics .getExternalMemorySize = none
        ∧ self._javaPart.getClass.getMethodID "getMemorySize" "jlong()" = .ok h))
    (hn : self._javaPart.callLongMethod h = .ok n) :
    ∃ r : Nat, (self.getExternalMemorySize sizeBits w).1 = Outcome.returned r
      ∧ (r : Int) = n % (2 : Int) ^ sizeBits
      ∧ ((r : Int) = n ↔ (0 ≤ n ∧ n < (2 : Int) ^ sizeBits)) := by
  have hpos : (0 : Int) < (2 : Int) ^ sizeBits := by positivity
  have hr : ((toSizeT sizeBits n : Nat) : Int) = n % (2 : Int) ^ sizeBits := by
    unfold toSizeT
    exact Int.toNat_of_nonneg (Int.emod_nonneg n (ne_of_gt hpos))
  refine ⟨toSizeT sizeBits n, ?_, hr, ?_⟩
  · rcases hh with hs | ⟨hs, hl⟩
    · simp [JHybridImageSpec.getExternalMemorySize, staticInit, callLong, hs, hn, noexcept]
    · simp [JHybridImageSpec.getExternalMemorySize, staticInit, getMethod, callLong, hs, hl,
        hn, noexcept]
  · rw [hr]
    constructor
    · intro heq
      rw [← heq]
      exact ⟨Int.emod_nonneg n (ne_of_gt hpos), Int.emod_lt_of_pos n hpos⟩
    · rintro ⟨h0, h1⟩
      exact Int.emod_eq_of_lt h0 h1

/-- Witness for `C7_size_is_host_value_mod_width`: the host object
`hybridImage`, which reports 4096 bytes, at process start. -/
theorem C7_size_is_host_value_mod_width_witness :
    ∃ r : Nat, (JHybridImageSpec.getExternalMemorySize 64 ⟨hybridImage⟩ World.init).1
        = Outcome.returned r
      ∧ (r : Int) = 4096 % (2 : Int) ^ 64
      ∧ ((r : Int) = 4096 ↔ (0 ≤ (4096 : Int) ∧ (4096 : Int) < (2 : Int) ^ 64)) :=
  C7_size_is_host_value_mod_width 64 ⟨hybridImage⟩ World.init ⟨13⟩ 4096
    (Or.inr ⟨rfl, rfl⟩) rfl

/-- C8: handle resolution is lazy and happens once. For every member `m` and
every sequence of calls from process start: while no call of the sequence
addresses `m`, the trace holds no lookup under the declared name of `m`; every
lookup made by a call of `m` asks for the declared name of `m`; the trace
holds at most one successful lookup under that name; and once a prefix of the
sequence has made a successful lookup, the rest of the sequence adds no lookup
under that name. -/
theorem C8_lookup_lazy_and_once (sizeBits : Nat) (cs : List Invocation) (m : Member) :
    ((∀ i ∈ cs, i.call.member ≠ m) →
        lookupsOf m.hostName (run sizeBits cs World.init).trace = [])
    ∧ (∀ (i : Invocation) (w : World), i.call.member = m →
        ∃ evs, (i.call.invoke sizeBits i.self w).2.trace = w.trace ++ evs
          ∧ ∀ cls name sig found, Event.lookup cls name sig found ∈ evs → name = m.hostName)
    ∧ (successfulLookupsOf m.hostName (run sizeBits cs World.init).trace).length ≤ 1
    ∧ (∀ cs1 cs2, cs = cs1 ++ cs2 →
        successfulLookupsOf m.hostName (run sizeBits cs1 World.init).trace ≠ [] →
        lookupsOf m.hostName (run sizeBits cs World.init).trace
          = lookupsOf m.hostName (run sizeBits cs1 World.init).trace) := by
  refine ⟨?_, ?_, ?_, ?_⟩
  · intro hcs
    rw [run_lookups_of_not_called sizeBits cs m hcs World.init]
    rfl
  · intro i w hi
    rw [invoke_world, hi]
    exact worldStep_lookup_name i.self m w
  · have h := lookupsMatchStatics_run sizeBits cs m
    rw [h]
    split <;> simp
  · intro cs1 cs2 hcs hne
    subst hcs
    rcases run_append sizeBits cs1 cs2 World.init with h | h
    · rw [h]
      apply run_lookups_of_cached
      have hinv := lookupsMatchStatics_run sizeBits cs1 m
      by_contra hnone
      rw [if_neg hnone] at hinv
      exact hne (List.length_eq_zero.mp hinv)
    · rw [h]

/-- Witness for `C8_lookup_lazy_and_once`: `getSize` on `hybridImage`, then
`getSize` and `getExternalMemorySize` on `otherImage`; the member is `getSize`,
and the first call is the prefix that makes the successful lookup. -/
theorem C8_lookup_lazy_and_once_witness :
    lookupsOf "getSize"
        (run 64 [⟨⟨hybridImage⟩, .getSize⟩, ⟨⟨otherImage⟩, .getSize⟩,
          ⟨⟨otherImage⟩, .getExternalMemorySize⟩] World.init).trace
      = lookupsOf "getSize" (run 64 [⟨⟨hybridImage⟩, .getSize⟩] World.init).trace :=
  (C8_lookup_lazy_and_once 64 [⟨⟨hybridImage⟩, .getSize⟩, ⟨⟨otherImage⟩, .getSize⟩,
      ⟨⟨otherImage⟩, .getExternalMemorySize⟩] Member.getSize).2.2.2
    [⟨⟨hybridImage⟩, .getSize⟩]
    [⟨⟨otherImage⟩, .getSize⟩, ⟨⟨otherImage⟩, .getExternalMemorySize⟩] rfl (by decide)

/-- C9: order of lookup and stub failure. A call of one of the six members
fails with the stub's runtime error exactly when the static of the member is
already initialised or the lookup succeeds; when the static is not initialised
and the lookup fails, the call fails with the lookup's own exception, no
static changes, and the next call of the member, on any instance, makes the
lookup again. -/
theorem C9_stub_error_after_lookup (sizeBits : Nat) (self : JHybridImageSpec) (c : Call)
    (w : World) (hc : c.member.isStub = true) :
    ((∃ msg, (c.invoke sizeBits self w).1 = Outcome.threw (Exn.runtime_error msg))
      ↔ ((w.statics c.member).isSome = true
        ∨ ∃ h, self._javaPart.getClass.getMethodID c.member.hostName c.member.signature
            = .ok h))
    ∧ ∀ e, w.statics c.member = none →
        self._javaPart.getClass.getMethodID c.member.hostName c.member.signature = .error e →
        (c.invoke sizeBits self w).1 = Outcome.threw (Exn.jni e)
        ∧ (c.invoke sizeBits self w).2.statics = w.statics
        ∧ (c.invoke sizeBits self w).2.trace = w.trace ++
            [Event.lookup self._javaPart.getClass.id c.member.hostName c.member.signature none]
        ∧ ∀ (self2 : JHybridImageSpec) (c2 : Call), c2.member = c.member →
            (c2.invoke sizeBits self2 (c.invoke sizeBits self w).2).2.trace
              = (c.invoke sizeBits self w).2.trace ++
                [Event.lookup self2._javaPart.getClass.id c.member.hostName c.member.signature
                  (self2._javaPart.getClass.getMethodID c.member.hostName
                    c.member.signature).toOption] := by
  constructor
  · rw [invoke_stub_eq sizeBits self c w hc]
    rcases stubStep_outcome self c.member w with ⟨hyes, ho⟩ | ⟨e, hs, hl, ho⟩
    · rw [ho]
      exact ⟨fun _ => hyes, fun _ => ⟨_, rfl⟩⟩
    · rw [ho]
      constructor
      · rintro ⟨msg, hmsg⟩
        cases hmsg
      · rintro (h1 | ⟨h, h1⟩)
        · rw [hs] at h1
          cases h1
        · rw [hl] at h1
          cases h1
  · intro e hs hl
    have hout : (c.invoke sizeBits self w).1 = Outcome.threw (Exn.jni e) := by
      rw [invoke_stub_eq sizeBits self c w hc]
      rcases stubStep_outcome self c.member w with ⟨hyes, _⟩ | ⟨e1, _, hl1, ho⟩
      · rcases hyes with h1 | ⟨h, h1⟩
        · rw [hs] at h1
          cases h1
        · rw [hl] at h1
          cases h1
      · rw [hl] at hl1
        cases hl1
        exact ho
    obtain ⟨hst, htr⟩ := worldStep_missing self c.member w e hs hl
    refine ⟨hout, by rw [invoke_world, hst], by rw [invoke_world, htr], ?_⟩
    intro self2 c2 hc2
    have hs2 : (c.invoke sizeBits self w).2.statics c.member = none := by
      rw [invoke_world, hst, hs]
    rw [invoke_world sizeBits self2 c2, hc2]
    cases hl2 : self2._javaPart.getClass.getMethodID c.member.hostName c.member.signature with
    | ok h2 =>
      rw [(worldStep_found self2 c.member _ h2 hs2 hl2).2, callEvents_stub self2 c.member h2 hc]
      rfl
    | error e2 =>
      rw [(worldStep_missing self2 c.member _ e2 hs2 hl2).2]
      rfl

/-- Witness for `C9_stub_error_after_lookup`: `toArrayBuffer(PNG)` on the host
object `noToArrayBuffer` at process start. -/
theorem C9_stub_error_after_lookup_witness :
    ((Call.toArrayBuffer ImageFormat.PNG).invoke 64 ⟨noToArrayBuffer⟩ World.init).1
        = Outcome.threw (Exn.jni ⟨"java.lang.NoSuchMethodError"⟩)
    ∧ ((Call.toArrayBuffer ImageFormat.PNG).invoke 64 ⟨noToArrayBuffer⟩ World.init).2.statics
        = World.init.statics :=
  ⟨((C9_stub_error_after_lookup 64 ⟨noToArrayBuffer⟩ (Call.toArrayBuffer ImageFormat.PNG)
      World.init rfl).2 ⟨"java.lang.NoSuchMethodError"⟩ rfl rfl).1,
    ((C9_stub_error_after_lookup 64 ⟨noToArrayBuffer⟩ (Call.toArrayBuffer ImageFormat.PNG)
      World.init rfl).2 ⟨"java.lang.NoSuchMethodError"⟩ rfl rfl).2.1⟩

/-- C10: whenever one of the six members fails with the stub's runtime error,
the message is the name of the member followed by
"(...) is not yet implemented!", whatever the arguments; and two calls that
fail with the same message address the same member. -/
theorem C10_stub_message (sizeBits : Nat) (self : JHybridImageSpec) (c : Call) (w : World)
    (msg : String) (hc : c.member.isStub = true)
    (hmsg : (c.invoke sizeBits self w).1 = Outcome.threw (Exn.runtime_error msg)) :
    msg = c.member.cppName ++ "(...) is not yet implemented!"
    ∧ ∀ (self2 : JHybridImageSpec) (c2 : Call) (w2 : World), c2.member.isStub = true →
        (c2.invoke sizeBits self2 w2).1 = Outcome.threw (Exn.runtime_error msg) →
        c2.member = c.member := by
  have key : ∀ (s : JHybridImageSpec) (d : Call) (v : World), d.member.isStub = true →
      (d.invoke sizeBits s v).1 = Outcome.threw (Exn.runtime_error msg) →
      msg = d.member.cppName ++ notYetImplemented := by
    intro s d v hd hv
    rw [invoke_stub_eq sizeBits s d v hd] at hv
    rcases stubStep_outcome s d.member v with ⟨_, ho⟩ | ⟨e, _, _, ho⟩
    · rw [ho] at hv
      injection hv with hv
      injection hv with hv
      exact hv.symm
    · rw [ho] at hv
      injection hv with hv
      cases hv
  refine ⟨key self c w hc hmsg, ?_⟩
  intro self2 c2 w2 hc2 hmsg2
  have h1 := key self c w hc hmsg
  have h2 := key self2 c2 w2 hc2 hmsg2
  exact stubMessage_injective c2.member c.member (h2.symm.trans h1)

/-- Witness for `C10_stub_message`: `toArrayBuffer(PNG)` on a host object
declaring every member, at process start. -/
theorem C10_stub_message_witness :
    "toArrayBuffer(...) is not yet implemented!"
        = (Call.toArrayBuffer ImageFormat.PNG).member.cppName ++ "(...) is not yet implemented!"
    ∧ ∀ (self2 : JHybridImageSpec) (c2 : Call) (w2 : World), c2.member.isStub = true →
        (c2.invoke 64 self2 w2).1
          = Outcome.threw (Exn.runtime_error "toArrayBuffer(...) is not yet implemented!") →
        c2.member = (Call.toArrayBuffer ImageFormat.PNG).member :=
  C10_stub_message 64 ⟨hybridImage⟩ (Call.toArrayBuffer ImageFormat.PNG) World.init
    "toArrayBuffer(...) is not yet implemented!" rfl rfl

end margelo.nitro.image
